import Mathlib

/-!
Shallow embedding of the Session & Execution Controller of the `pegasus`
notebook client (the `App` component in `src/unnamed/part_000`).

The JS state hooks become fields of `AppState`; each handler becomes a
Lean function on `AppState`.  JS arrays are `List`s, `Array.prototype.map`
with an index callback is `mapWithIndex`, and the two `splice` patterns
used by the code are `listInsertAt` / `listRemoveAt` (which reproduce
`splice`'s clamping behaviour at the list's length).  The `metadata` /
`nbformat` fields of a notebook are carried through every operation
unchanged by the JS object spreads and never read, so they are omitted
from the model.
-/

namespace Pegasus

/-- JS `list.map((x, i) => f i x)`, with the running index made explicit. -/
def mapWithIndexFrom (f : Nat → α → α) : Nat → List α → List α
  | _, [] => []
  | k, a :: as => f k a :: mapWithIndexFrom f (k + 1) as

/-- JS `list.map((x, i) => f i x)`. -/
def mapWithIndex (f : Nat → α → α) (l : List α) : List α :=
  mapWithIndexFrom f 0 l

/-- JS `list.splice(n, 0, a)`: insert `a` at position `n`, clamped to the
end of the list when `n` exceeds its length. -/
def listInsertAt (l : List α) (n : Nat) (a : α) : List α :=
  l.take n ++ a :: l.drop n

/-- JS `list.filter((x, i) => i !== n)` (and `list.splice(n, 1)`): remove
the element at position `n`; a no-op when `n` is out of range. -/
def listRemoveAt (l : List α) (n : Nat) : List α :=
  l.take n ++ l.drop (n + 1)

/-- The `cell_type` field. -/
inductive CellType
  | code
  | markdown
deriving DecidableEq, Repr

/-- The `type` field of an output object crossing `setCellOutput` /
`onmessage`: the stored values `status` / `stdout` / `stderr`, plus
`stream`, the tag carried by an incoming streamed frame. -/
inductive OutputType
  | status
  | stdout
  | stderr
  | stream
deriving DecidableEq, Repr

/-- One output object `{type, content}`. -/
structure Output where
  type : OutputType
  content : String
deriving DecidableEq, Repr

/-- One notebook cell.  A markdown cell's missing `outputs` field is
modelled as the empty list (JS reads of the missing field are falsy and
take the same defaults). -/
structure Cell where
  cell_type : CellType
  source : List String
  outputs : List Output
deriving DecidableEq, Repr

/-- The notebook content object (the Document): its ordered cell list. -/
structure Content where
  cells : List Cell
deriving DecidableEq, Repr

/-- The resource-stats side channel; the stat payloads are opaque. -/
structure ResourceStats where
  ram : Option String
  cpu : Option String
  disk : Option String
deriving DecidableEq, Repr

/-- The controller state: the React state hooks of `App`, plus the
`localStorage` copy of the token and whether the socket is open. -/
structure AppState where
  token : Option String
  storedToken : Option String
  content : Option Content
  status : String
  hasError : Bool
  activeCellIndex : Option Nat
  isDirty : Bool
  executingCellIndex : Option Nat
  resourceStats : Option ResourceStats
  socketOpen : Bool
deriving DecidableEq, Repr

/-- `EMPTY_MARKDOWN_CELL` (part_000 lines 15-19). -/
def EMPTY_MARKDOWN_CELL : Cell :=
  { cell_type := .markdown
    source := ["# Nova Célula", "Clique para editar..."]
    outputs := [] }

/-- `EMPTY_CODE_CELL` (part_000 lines 21-26). -/
def EMPTY_CODE_CELL : Cell :=
  { cell_type := .code
    source := ["print('Olá!')"]
    outputs := [] }

/-- `clearAllOutputs` (part_000 lines 338-350): empty the `outputs` of
every code cell; markdown cells are untouched; the dirty flag is not set. -/
def clearAllOutputs (st : AppState) : AppState :=
  match st.content with
  | none => st
  | some c =>
      { st with content := some { c with cells := c.cells.map fun cell =>
          if cell.cell_type = .code then { cell with outputs := [] } else cell } }

/-- `handleCellFocus` (part_000 lines 352-354). -/
def handleCellFocus (st : AppState) (index : Nat) : AppState :=
  { st with activeCellIndex := some index }

/-- `handleCellChange` (part_000 lines 357-376): replace the cell's
source with the text split at newlines and mark the document dirty. -/
def handleCellChange (st : AppState) (index : Nat) (newSourceString : String) :
    AppState :=
  match st.content with
  | none => st
  | some c =>
      let newCells := mapWithIndex (fun i cell =>
        if i = index then { cell with source := newSourceString.splitOn "\n" }
        else cell) c.cells
      { st with isDirty := true, content := some { c with cells := newCells } }

/-- `handleDeleteCell` (part_000 lines 379-400).  `confirmDelete` is the
boundary's answer to the `confirm` dialog, consulted only when the
document has exactly one cell. -/
def handleDeleteCell (st : AppState) (index : Nat) (confirmDelete : Bool) :
    AppState :=
  match st.content with
  | none => st
  | some c =>
      if c.cells.length = 1 ∧ confirmDelete = false then st
      else
        let newCells := listRemoveAt c.cells index
        let newActive : Option Nat :=
          match st.activeCellIndex with
          | none => none
          | some a =>
              if a = index then (if index > 0 then some (index - 1) else none)
              else if a > index then some (a - 1)
              else some a
        { st with content := some { c with cells := newCells }
                  activeCellIndex := newActive
                  isDirty := true }

inductive Direction
  | up
  | down
deriving DecidableEq, Repr

/-- `handleMoveCell` (part_000 lines 402-426).  The JS computes
`newIndex = index ± 1` and returns unless `0 ≤ newIndex < length`; it
then splices the cell out of `index` and back in at `newIndex`, and the
active index follows the moved cell.  The one argument the guard lets
through with no cell at `index` is `index = length` with `up`, where the
JS splices `undefined` into the array — a corrupted state outside the
`Cell` data model, unreachable from the per-cell UI buttons; the model
leaves the state unchanged there. -/
def handleMoveCell (st : AppState) (index : Nat) (direction : Direction) :
    AppState :=
  match st.content with
  | none => st
  | some c =>
      let newIndex : Int :=
        match direction with
        | .up => (index : Int) - 1
        | .down => (index : Int) + 1
      if newIndex < 0 ∨ (c.cells.length : Int) ≤ newIndex then st
      else
        match c.cells[index]? with
        | none => st
        | some cellToMove =>
            let newCells := listInsertAt (listRemoveAt c.cells index)
              newIndex.toNat cellToMove
            { st with content := some { c with cells := newCells }
                      activeCellIndex := some newIndex.toNat
                      isDirty := true }

/-- `handleAddCell` (part_000 lines 503-520): insert the template cell for
`type` right after the active cell (or at the end when none is active);
the new active index is the stale `activeCellIndex + 1`, or the previous
cell count when none was active. -/
def handleAddCell (st : AppState) (type_ : CellType) : AppState :=
  match st.content with
  | none => st
  | some c =>
      let newCell := if type_ = .code then EMPTY_CODE_CELL else EMPTY_MARKDOWN_CELL
      let insertIndex :=
        match st.activeCellIndex with
        | some a => a + 1
        | none => c.cells.length
      let newCells := listInsertAt c.cells insertIndex newCell
      { st with content := some { c with cells := newCells }
                activeCellIndex := some (match st.activeCellIndex with
                  | some a => a + 1
                  | none => c.cells.length)
                isDirty := true }

/-- The cell transformation inside `setCellOutput` (part_000 lines
429-465) at the targeted index. -/
def mergeOutput (cell : Cell) (output : Output) (isStream : Bool) : Cell :=
  if !isStream then { cell with outputs := [output] }
  else
    let oldOutput := cell.outputs.headD { type := .stdout, content := "" }
    let newContent :=
      if oldOutput.type = .status then output.content
      else oldOutput.content ++ output.content
    let newType := if oldOutput.type = .status then .stdout else oldOutput.type
    { cell with outputs := [{ type := newType, content := newContent }] }

/-- `setCellOutput` (part_000 lines 429-465), acting on the cell list. -/
def setCellOutputCells (cells : List Cell) (cellIndex : Nat) (output : Output)
    (isStream : Bool) : List Cell :=
  mapWithIndex (fun i cell =>
    if i = cellIndex then mergeOutput cell output isStream else cell) cells

/-- `setCellOutput` (part_000 lines 429-465) as a state transformer. -/
def setCellOutput (st : AppState) (cellIndex : Nat) (output : Output)
    (isStream : Bool) : AppState :=
  match st.content with
  | none => st
  | some c =>
      let newCells := setCellOutputCells c.cells cellIndex output isStream
      { st with content := some { c with cells := newCells } }

/-- Frames the client sends over the socket. -/
inductive ClientMsg
  | execute (code : String)
  | stop_execution
  | restart_kernel
deriving DecidableEq, Repr

/-- `handleRunCell` (part_000 lines 470-500).  Returns the new state and
the frames sent on the socket.  The JS first sets the active and
executing indices, then bails out with a "Kernel não conectado" status if
no document is loaded or the socket is not open, then returns silently on
a non-code cell (leaving the executing index set), and otherwise applies
the "Executando..." status placeholder and sends the execute request with
the cell's newline-joined source.  An out-of-range `index` makes the JS
throw on reading `cell.cell_type` after the first two state updates; the
model applies those updates and sends nothing, the claims never exercise
this case. -/
def handleRunCell (st : AppState) (index : Nat) : AppState × List ClientMsg :=
  let st1 := { st with activeCellIndex := some index
                       executingCellIndex := some index }
  if st1.content.isNone ∨ st1.socketOpen = false then
    ({ st1 with status := "Kernel não conectado. Tente recarregar."
                hasError := true
                executingCellIndex := none }, [])
  else
    match st1.content with
    | none => (st1, [])
    | some c =>
        match c.cells[index]? with
        | none => (st1, [])
        | some cell =>
            if cell.cell_type ≠ .code then (st1, [])
            else
              let code := String.intercalate "\n" cell.source
              let st2 := setCellOutput st1 index
                { type := .status, content := "Executando..." } false
              ({ st2 with status := "Executando código..."
                          hasError := false }, [.execute code])

/-- The inline terminal-frame merge in `newSocket.onmessage`'s
`stdout`/`stderr` case (part_000 lines 626-653): the final output takes
the message's type and the old content concatenated with the message
content — with no check for the `status` placeholder. -/
def terminalMergeCells (cells : List Cell) (i : Nat) (t : OutputType)
    (content : String) : List Cell :=
  mapWithIndex (fun j cell =>
    if j = i then
      let oldOutput := cell.outputs.headD { type := .stdout, content := "" }
      { cell with outputs := [{ type := t, content := oldOutput.content ++ content }] }
    else cell) cells

/-- Frames the server sends over the socket (the `data.type` discriminator
of `newSocket.onmessage`, part_000 lines 612-672). -/
inductive ServerMsg
  | stream (content : String)
  | stdout (content : String)
  | stderr (content : String)
  | filesystem_update
  | resource_stats (content : String)
  | disk_stats (content : String)
  | unknown
deriving DecidableEq, Repr

/-- The `stdout`/`stderr` (terminal) case of `onmessage`: merge into the
current active cell, report completion and clear the executing index. -/
def handleTerminal (st : AppState) (t : OutputType) (content : String) : AppState :=
  let st1 :=
    match st.activeCellIndex, st.content with
    | some i, some c =>
        let newCells := terminalMergeCells c.cells i t content
        { st with content := some { c with cells := newCells } }
    | _, _ => st
  { st1 with status := "Execução concluída.", executingCellIndex := none }

/-- `newSocket.onmessage` (part_000 lines 612-672).  A `stream` frame is
routed through `setCellOutput` with `isStream = true` against the current
active cell; `stdout`/`stderr` are terminal; `filesystem_update` only
refreshes the external file listing; the stats frames merge into the
resource-stats side channel; an unknown type defensively clears the
executing index. -/
def onmessage (st : AppState) (msg : ServerMsg) : AppState :=
  match msg with
  | .stream content =>
      match st.activeCellIndex with
      | some i => setCellOutput st i { type := .stream, content := content } true
      | none => st
  | .stdout content => handleTerminal st .stdout content
  | .stderr content => handleTerminal st .stderr content
  | .filesystem_update => st
  | .resource_stats content =>
      let prev := st.resourceStats.getD { ram := none, cpu := none, disk := none }
      { st with resourceStats := some { prev with ram := some content, cpu := some content } }
  | .disk_stats content =>
      let prev := st.resourceStats.getD { ram := none, cpu := none, disk := none }
      { st with resourceStats := some { prev with disk := some content } }
  | .unknown => { st with executingCellIndex := none }

/-- What a connection closure leads to, beyond the state update. -/
inductive CloseOutcome
  | loggedOut
  | reconnectScheduled (credential : String)
  | disconnectedError
deriving DecidableEq, Repr

/-- `newSocket.onclose` (part_000 lines 592-609).  Always clears the
executing index and the resource stats.  Code 1008 forces logout.  Reason
`"Kernel restarting"` clears all outputs and schedules
`setToken(t => t + ' ')` one second later, which re-runs the connection
effect with the space-extended token as the credential; the model folds
the scheduled token update into the returned state (JS coerces a `null`
token to the string `"null"` when concatenating, hence `getD "null"`).
Any other closure surfaces an error and does not reconnect. -/
def oncloseStep (st : AppState) (code : Nat) (reason : String) :
    AppState × CloseOutcome :=
  let st1 := { st with executingCellIndex := none, resourceStats := none }
  if code = 1008 then
    ({ st1 with status := "Sessão expirada. Faça login novamente."
                storedToken := none
                token := none
                socketOpen := false }, .loggedOut)
  else if reason = "Kernel restarting" then
    let st2 := clearAllOutputs { st1 with status := "Kernel reiniciado. Reconectando..." }
    let newTok := st2.token.getD "null" ++ " "
    ({ st2 with token := some newTok, socketOpen := false },
     .reconnectScheduled newTok)
  else
    ({ st1 with status := "Desconectado do Kernel."
                hasError := true
                socketOpen := false }, .disconnectedError)

/-- The structural cell operations of claim C2. -/
inductive CellOp
  | insert (kind : CellType)
  | delete (index : Nat) (confirmDelete : Bool)
  | move (index : Nat) (direction : Direction)
deriving DecidableEq, Repr

def applyCellOp (st : AppState) : CellOp → AppState
  | .insert kind => handleAddCell st kind
  | .delete index confirmDelete => handleDeleteCell st index confirmDelete
  | .move index direction => handleMoveCell st index direction

def applyCellOps (st : AppState) (ops : List CellOp) : AppState :=
  ops.foldl applyCellOp st

/-- Every event that mutates the controller state: cell mutations, runs,
inbound frames and connection closures. -/
inductive AppEvent
  | cellOp (op : CellOp)
  | cellChange (index : Nat) (text : String)
  | cellFocus (index : Nat)
  | run (index : Nat)
  | clearOutputs
  | serverMsg (msg : ServerMsg)
  | close (code : Nat) (reason : String)
deriving DecidableEq, Repr

def stepEvent (st : AppState) : AppEvent → AppState
  | .cellOp op => applyCellOp st op
  | .cellChange index text => handleCellChange st index text
  | .cellFocus index => handleCellFocus st index
  | .run index => (handleRunCell st index).1
  | .clearOutputs => clearAllOutputs st
  | .serverMsg msg => onmessage st msg
  | .close code reason => (oncloseStep st code reason).1

def stepEvents (st : AppState) (evs : List AppEvent) : AppState :=
  evs.foldl stepEvent st

/-- The autosave debounce (part_000 lines 691-708), as fire-time
semantics over a nondecreasing list of mutation timestamps: each
mutation cancels any pending timer (`clearTimeout`) and arms a new one
`delay` later (`setTimeout(saveNotebook, 2000)`); a pending timer whose
deadline is reached before the next mutation fires a save.  The result
is the list of save times. -/
def debounceRun (delay : Nat) : Option Nat → List Nat → List Nat
  | none, [] => []
  | some d, [] => [d]
  | none, t :: rest => debounceRun delay (some (t + delay)) rest
  | some d, t :: rest =>
      if d ≤ t then d :: debounceRun delay (some (t + delay)) rest
      else debounceRun delay (some (t + delay)) rest

/-- Save times produced by the autosave scheduler for a nondecreasing
list of mutation timestamps, starting with no timer armed. -/
def debounceFires (delay : Nat) (muts : List Nat) : List Nat :=
  debounceRun delay none muts

/-- The debounce window hard-coded in `setTimeout(saveNotebook, 2000)`. -/
def AUTOSAVE_DELAY : Nat := 2000

/-- Number of cells of the loaded document (0 when none is loaded). -/
def cellCount (st : AppState) : Nat :=
  match st.content with
  | none => 0
  | some c => c.cells.length

/-- The invariant of claim C2: the active cell index is `none` or a valid
index into the loaded document's cell sequence. -/
def activeOK (st : AppState) : Bool :=
  match st.activeCellIndex with
  | none => true
  | some a => decide (a < cellCount st)

/-- A small concrete controller state used by the witnesses: a loaded
two-cell document (code then markdown), an open socket, nothing active
or executing. -/
def baseState : AppState :=
  { token := some "tok"
    storedToken := some "tok"
    content := some { cells := [EMPTY_CODE_CELL, EMPTY_MARKDOWN_CELL] }
    status := "Pronto."
    hasError := false
    activeCellIndex := none
    isDirty := false
    executingCellIndex := none
    resourceStats := none
    socketOpen := true }

/-- Concatenation of streamed frames' `content` in arrival order. -/
def concatContents (frames : List Output) : String :=
  frames.foldr (fun f acc => f.content ++ acc) ""

/-- Deliver a sequence of streamed frames to cell `i` through
`setCellOutput` with `isStream = true`. -/
def applyStreamFrames (cells : List Cell) (i : Nat) (frames : List Output) :
    List Cell :=
  frames.foldl (fun cs f => setCellOutputCells cs i f true) cells

/-- A state with one execution already in flight on cell 0 of a two-code-cell
document and the socket open. -/
def busyState : AppState :=
  { baseState with
      content := some { cells := [EMPTY_CODE_CELL, EMPTY_CODE_CELL] }
      activeCellIndex := some 0
      executingCellIndex := some 0 }

/-- The provable half of the claim-C6 invariant: every cell holds at most
one Output object. -/
def outputsAtMostOne (st : AppState) : Bool :=
  match st.content with
  | none => true
  | some c => c.cells.all (fun cell => decide (cell.outputs.length ≤ 1))

/-- The per-cell bound: at most one Output object. -/
def atMostOne (cell : Cell) : Bool := decide (cell.outputs.length ≤ 1)

theorem length_mapWithIndexFrom (f : Nat → α → α) (k : Nat) (l : List α) :
    (mapWithIndexFrom f k l).length = l.length := by
  induction l generalizing k with
  | nil => rfl
  | cons a as ih => simp [mapWithIndexFrom, ih]

theorem length_mapWithIndex (f : Nat → α → α) (l : List α) :
    (mapWithIndex f l).length = l.length :=
  length_mapWithIndexFrom f 0 l

theorem getElem?_mapWithIndexFrom (f : Nat → α → α) (k j : Nat) (l : List α) :
    (mapWithIndexFrom f k l)[j]? = (l[j]?).map (f (k + j)) := by
  induction l generalizing k j with
  | nil => simp [mapWithIndexFrom]
  | cons a as ih =>
      cases j with
      | zero => simp [mapWithIndexFrom]
      | succ j =>
          have := ih (k + 1) j
          simp only [mapWithIndexFrom, List.getElem?_cons_succ, this]
          have hkj : k + 1 + j = k + (j + 1) := by omega
          rw [hkj]

theorem getElem?_mapWithIndex (f : Nat → α → α) (j : Nat) (l : List α) :
    (mapWithIndex f l)[j]? = (l[j]?).map (f j) := by
  have := getElem?_mapWithIndexFrom f 0 j l
  simpa [mapWithIndex] using this

theorem length_listInsertAt (l : List α) (n : Nat) (a : α) :
    (listInsertAt l n a).length = l.length + 1 := by
  simp [listInsertAt]; omega

theorem length_listRemoveAt (l : List α) (n : Nat) :
    (listRemoveAt l n).length = if n < l.length then l.length - 1 else l.length := by
  simp [listRemoveAt]; split <;> omega

theorem activeOK_handleAddCell (st : AppState) (k : CellType)
    (h : activeOK st = true) : activeOK (handleAddCell st k) = true := by
  unfold handleAddCell
  cases hc : st.content with
  | none => simpa [hc] using h
  | some c =>
      cases ha : st.activeCellIndex with
      | none => simp [activeOK, cellCount, ha, hc, length_listInsertAt]
      | some a =>
          have hlt : a < c.cells.length := by
            have h' := h
            simp [activeOK, cellCount, ha, hc] at h'
            exact h'
          simp [activeOK, cellCount, ha, hc, length_listInsertAt]
          omega

theorem activeOK_handleDeleteCell (st : AppState) (index : Nat) (cf : Bool)
    (h : activeOK st = true) : activeOK (handleDeleteCell st index cf) = true := by
  unfold handleDeleteCell
  cases hc : st.content with
  | none => simpa [hc] using h
  | some c =>
      by_cases hone : c.cells.length = 1 ∧ cf = false
      · simp only [hc, hone, if_pos]
        exact h
      · simp only [hc, hone, if_neg, not_false_iff]
        cases ha : st.activeCellIndex with
        | none => simp [activeOK, cellCount, ha]
        | some a =>
            have hlt : a < c.cells.length := by
              have h' := h
              simp [activeOK, cellCount, ha, hc] at h'
              exact h'
            by_cases hai : a = index
            · subst hai
              by_cases hpos : a > 0
              · simp [activeOK, cellCount, ha, hpos, length_listRemoveAt]
                split <;> omega
              · simp [activeOK, cellCount, ha, hpos]
            · by_cases hgt : a > index
              · simp [activeOK, cellCount, ha, hai, hgt, length_listRemoveAt]
                split <;> omega
              · simp [activeOK, cellCount, ha, hai, hgt, length_listRemoveAt]
                split <;> omega

theorem activeOK_handleMoveCell (st : AppState) (index : Nat) (d : Direction)
    (h : activeOK st = true) : activeOK (handleMoveCell st index d) = true := by
  unfold handleMoveCell
  cases hc : st.content with
  | none => simpa [hc] using h
  | some c =>
      cases hcell : c.cells[index]? with
      | none =>
          cases d <;> simp only [hc, hcell] <;> split <;> exact h
      | some cellToMove =>
          have hidx : index < c.cells.length := by
            by_contra hge
            push_neg at hge
            rw [List.getElem?_eq_none hge] at hcell
            cases hcell
          cases d <;> simp only [hc, hcell] <;> split
          · exact h
          · rename_i hguard
            simp [activeOK, cellCount, length_listInsertAt, length_listRemoveAt, hidx]
            omega
          · exact h
          · rename_i hguard
            simp [activeOK, cellCount, length_listInsertAt, length_listRemoveAt, hidx]
            omega

theorem activeOK_applyCellOp (st : AppState) (op : CellOp)
    (h : activeOK st = true) : activeOK (applyCellOp st op) = true := by
  cases op with
  | insert kind => exact activeOK_handleAddCell st kind h
  | delete index cf => exact activeOK_handleDeleteCell st index cf h
  | move index d => exact activeOK_handleMoveCell st index d h

/-- C2: for every Document and every finite sequence of `insertCell`,
`deleteCell` (with confirmation answered either way) and `moveCell`
operations, the resulting `activeCellIndex` is either `none` or a valid
index into the resulting cell sequence. -/
theorem activeCellIndex_valid_after_cellOps (st : AppState) (ops : List CellOp)
    (h : activeOK st = true) : activeOK (applyCellOps st ops) = true := by
  induction ops generalizing st with
  | nil => exact h
  | cons op ops ih => exact ih (applyCellOp st op) (activeOK_applyCellOp st op h)

theorem activeCellIndex_valid_after_cellOps_witness :
    activeOK baseState = true ∧
    activeOK (applyCellOps baseState
      [.insert .code, .move 1 .up, .delete 0 true, .delete 1 true,
       .delete 0 true, .move 0 .down, .delete 0 true]) = true :=
  ⟨by decide, activeCellIndex_valid_after_cellOps baseState
    [.insert .code, .move 1 .up, .delete 0 true, .delete 1 true,
     .delete 0 true, .move 0 .down, .delete 0 true] (by decide)⟩

theorem getElem?_setCellOutputCells (cells : List Cell) (i j : Nat)
    (out : Output) (s : Bool) :
    (setCellOutputCells cells i out s)[j]? =
      (cells[j]?).map (fun cell => if j = i then mergeOutput cell out s else cell) := by
  simp [setCellOutputCells, getElem?_mapWithIndex]

theorem applyStreamFrames_from_stdout (i : Nat) (frames : List Output) :
    ∀ (cells : List Cell) (cell : Cell) (acc : String),
      cells[i]? = some cell →
      cell.outputs = [{ type := .stdout, content := acc }] →
      (applyStreamFrames cells i frames)[i]? =
        some { cell with outputs :=
          [{ type := .stdout, content := acc ++ concatContents frames }] } := by
  induction frames with
  | nil =>
      intro cells cell acc hcell hout
      simp only [applyStreamFrames, List.foldl_nil, concatContents, List.foldr_nil,
        String.append_empty, hcell]
      rw [← hout]
  | cons f fs ih =>
      intro cells cell acc hcell hout
      have hstep : (setCellOutputCells cells i f true)[i]? =
          some { cell with outputs :=
            [{ type := .stdout, content := acc ++ f.content }] } := by
        rw [getElem?_setCellOutputCells, hcell]
        simp [mergeOutput, hout]
      have hrest := ih (setCellOutputCells cells i f true) _ (acc ++ f.content)
        hstep rfl
      simp only [applyStreamFrames, List.foldl_cons] at hrest ⊢
      rw [hrest]
      simp [concatContents, String.append_assoc]

/-- C3: applying the non-streamed `status` placeholder and then any
nonempty sequence of streamed frames whose first frame has kind `stdout`
to a code cell yields an Output whose content is exactly the
concatenation of the streamed frames' contents in arrival order (of kind
`stdout`); the placeholder text contributes nothing to it. -/
theorem stream_after_placeholder_concatenates (cells : List Cell) (i : Nat)
    (cell : Cell) (f0 : Output) (fs : List Output) (placeholderText : String)
    (hcell : cells[i]? = some cell) (hcode : cell.cell_type = .code)
    (hf0 : f0.type = .stdout) :
    (applyStreamFrames
        (setCellOutputCells cells i
          { type := .status, content := placeholderText } false)
        i (f0 :: fs))[i]? =
      some { cell with outputs :=
        [{ type := .stdout, content := concatContents (f0 :: fs) }] } := by
  have hplace : (setCellOutputCells cells i
      { type := .status, content := placeholderText } false)[i]? =
      some { cell with outputs :=
        [{ type := .status, content := placeholderText }] } := by
    rw [getElem?_setCellOutputCells, hcell]
    simp [mergeOutput]
  have hfirst : (setCellOutputCells
      (setCellOutputCells cells i
        { type := .status, content := placeholderText } false) i f0 true)[i]? =
      some { cell with outputs :=
        [{ type := .stdout, content := f0.content }] } := by
    rw [getElem?_setCellOutputCells, hplace]
    simp [mergeOutput]
  have hrest := applyStreamFrames_from_stdout i fs _ _ f0.content hfirst rfl
  simp only [applyStreamFrames, List.foldl_cons] at hrest ⊢
  rw [hrest]
  rfl

theorem stream_after_placeholder_concatenates_witness :
    ([EMPTY_CODE_CELL] : List Cell)[0]? = some EMPTY_CODE_CELL ∧
    EMPTY_CODE_CELL.cell_type = .code ∧
    (Output.mk .stdout "he").type = .stdout ∧
    (applyStreamFrames
        (setCellOutputCells [EMPTY_CODE_CELL] 0
          { type := .status, content := "Executando..." } false)
        0 [{ type := .stdout, content := "he" }, { type := .stream, content := "llo" }])[0]? =
      some { EMPTY_CODE_CELL with outputs :=
        [{ type := .stdout,
           content := concatContents
             [{ type := .stdout, content := "he" }, { type := .stream, content := "llo" }] }] } :=
  ⟨rfl, rfl, rfl,
    stream_after_placeholder_concatenates [EMPTY_CODE_CELL] 0 EMPTY_CODE_CELL
      { type := .stdout, content := "he" } [{ type := .stream, content := "llo" }]
      "Executando..." rfl rfl rfl⟩

/-- C1 counterexample: with the two-cell demo document, `run(0)` puts the
"Executando..." placeholder on cell 0; a terminal `stdout` frame `"hi"`
then arrives as the first real output chunk, and the resulting Output is
`{stdout, "Executando...hi"}` — the placeholder text was appended to, not
replaced, and remains a prefix of the Output's content. -/
theorem terminal_frame_appends_to_placeholder_counterexample :
    ((stepEvents baseState [.run 0, .serverMsg (.stdout "hi")]).content.bind
        (fun c => c.cells[0]?)).map Cell.outputs =
      some [{ type := .stdout, content := "Executando...hi" }] ∧
    ("Executando...hi" : String) = "Executando..." ++ "hi" := by
  exact ⟨by decide, by decide⟩

/-- C1 (amended): for a cell whose current Output is the `status`
placeholder, a streamed frame replaces the placeholder's content entirely
(the placeholder text is discarded), but a terminal `stdout`/`stderr`
frame appends its content to the placeholder's content, so the
placeholder text stays in the resulting Output. -/
theorem first_chunk_on_placeholder (cells : List Cell) (i : Nat) (cell : Cell)
    (s : String) (f : Output) (t : OutputType) (m : String)
    (hcell : cells[i]? = some cell)
    (hout : cell.outputs = [{ type := .status, content := s }]) :
    (setCellOutputCells cells i f true)[i]? =
      some { cell with outputs := [{ type := .stdout, content := f.content }] } ∧
    (terminalMergeCells cells i t m)[i]? =
      some { cell with outputs := [{ type := t, content := s ++ m }] } := by
  constructor
  · rw [getElem?_setCellOutputCells, hcell]
    simp [mergeOutput, hout]
  · simp [terminalMergeCells, getElem?_mapWithIndex, hcell, hout]

theorem first_chunk_on_placeholder_witness :
    ([{ EMPTY_CODE_CELL with outputs :=
        [{ type := .status, content := "Executando..." }] }] : List Cell)[0]? =
      some { EMPTY_CODE_CELL with outputs :=
        [{ type := .status, content := "Executando..." }] } ∧
    ({ EMPTY_CODE_CELL with outputs :=
        [{ type := .status, content := "Executando..." }] } : Cell).outputs =
      [{ type := .status, content := "Executando..." }] ∧
    ((setCellOutputCells
        [{ EMPTY_CODE_CELL with outputs :=
          [{ type := .status, content := "Executando..." }] }] 0
        { type := .stream, content := "hi" } true)[0]? =
      some { EMPTY_CODE_CELL with outputs :=
        [{ type := .stdout, content := "hi" }] } ∧
    (terminalMergeCells
        [{ EMPTY_CODE_CELL with outputs :=
          [{ type := .status, content := "Executando..." }] }] 0 .stderr "boom")[0]? =
      some { EMPTY_CODE_CELL with outputs :=
        [{ type := .stderr, content := "Executando..." ++ "boom" }] }) :=
  ⟨rfl, rfl,
    first_chunk_on_placeholder
      [{ EMPTY_CODE_CELL with outputs :=
        [{ type := .status, content := "Executando..." }] }] 0
      { EMPTY_CODE_CELL with outputs :=
        [{ type := .status, content := "Executando..." }] }
      "Executando..." { type := .stream, content := "hi" } .stderr "boom" rfl rfl⟩

/-- C7: a `run(index)` issued while the socket is not open or no document
is loaded fails immediately with the "Kernel não conectado" error status,
sends nothing on the socket, clears the executing indicator and leaves
the document (hence every cell's Output) unchanged. -/
theorem run_not_connected (st : AppState) (j : Nat)
    (h : st.socketOpen = false ∨ st.content = none) :
    (handleRunCell st j).2 = [] ∧
    (handleRunCell st j).1.content = st.content ∧
    (handleRunCell st j).1.status = "Kernel não conectado. Tente recarregar." ∧
    (handleRunCell st j).1.hasError = true ∧
    (handleRunCell st j).1.executingCellIndex = none := by
  unfold handleRunCell
  rcases h with h | h <;> simp [h]

theorem run_not_connected_witness :
    (({ baseState with socketOpen := false } : AppState).socketOpen = false ∨
      ({ baseState with socketOpen := false } : AppState).content = none) ∧
    ((handleRunCell { baseState with socketOpen := false } 0).2 = [] ∧
     (handleRunCell { baseState with socketOpen := false } 0).1.content =
       ({ baseState with socketOpen := false } : AppState).content ∧
     (handleRunCell { baseState with socketOpen := false } 0).1.status =
       "Kernel não conectado. Tente recarregar." ∧
     (handleRunCell { baseState with socketOpen := false } 0).1.hasError = true ∧
     (handleRunCell { baseState with socketOpen := false } 0).1.executingCellIndex = none) :=
  ⟨Or.inl rfl, run_not_connected { baseState with socketOpen := false } 0 (Or.inl rfl)⟩

/-- C9: on a single-cell document, `deleteCell` is gated on the
confirmation answer: refusing leaves the whole controller state (cells,
dirty flag, active index) unchanged, and granting removes the cell. -/
theorem single_cell_delete_confirmation (st : AppState) (c : Content) (k : Nat)
    (hc : st.content = some c) (hone : c.cells.length = 1) :
    handleDeleteCell st k false = st ∧
    (handleDeleteCell st k true).content =
      some { c with cells := listRemoveAt c.cells k } := by
  constructor
  · unfold handleDeleteCell
    simp [hc, hone]
  · unfold handleDeleteCell
    simp [hc, hone]

theorem single_cell_delete_confirmation_witness :
    ({ baseState with content := some { cells := [EMPTY_CODE_CELL] } } : AppState).content =
      some { cells := [EMPTY_CODE_CELL] } ∧
    (Content.mk [EMPTY_CODE_CELL]).cells.length = 1 ∧
    (handleDeleteCell { baseState with content := some { cells := [EMPTY_CODE_CELL] } } 0 false =
      { baseState with content := some { cells := [EMPTY_CODE_CELL] } } ∧
    (handleDeleteCell { baseState with content := some { cells := [EMPTY_CODE_CELL] } } 0 true).content =
      some { Content.mk [EMPTY_CODE_CELL] with cells := listRemoveAt [EMPTY_CODE_CELL] 0 }) :=
  ⟨rfl, rfl,
    single_cell_delete_confirmation
      { baseState with content := some { cells := [EMPTY_CODE_CELL] } }
      { cells := [EMPTY_CODE_CELL] } 0 rfl rfl⟩

/-- C10: a `run(index)` on a markdown cell while the socket is open and a
document is loaded sets both the active and executing indices to `index`,
sends no execute request, applies no placeholder Output, and returns with
`executingCellIndex` still set to `index` — the busy indicator is not
cleared by the call itself. -/
theorem run_markdown_cell (st : AppState) (j : Nat) (c : Content) (cell : Cell)
    (hopen : st.socketOpen = true) (hc : st.content = some c)
    (hcell : c.cells[j]? = some cell) (hmd : cell.cell_type = .markdown) :
    (handleRunCell st j).2 = [] ∧
    (handleRunCell st j).1.executingCellIndex = some j ∧
    (handleRunCell st j).1.activeCellIndex = some j ∧
    (handleRunCell st j).1.content = st.content := by
  unfold handleRunCell
  simp [hc, hopen, hcell, hmd]

theorem run_markdown_cell_witness :
    baseState.socketOpen = true ∧
    baseState.content = some { cells := [EMPTY_CODE_CELL, EMPTY_MARKDOWN_CELL] } ∧
    (Content.mk [EMPTY_CODE_CELL, EMPTY_MARKDOWN_CELL]).cells[1]? = some EMPTY_MARKDOWN_CELL ∧
    EMPTY_MARKDOWN_CELL.cell_type = .markdown ∧
    ((handleRunCell baseState 1).2 = [] ∧
     (handleRunCell baseState 1).1.executingCellIndex = some 1 ∧
     (handleRunCell baseState 1).1.activeCellIndex = some 1 ∧
     (handleRunCell baseState 1).1.content = baseState.content) :=
  ⟨rfl, rfl, rfl, rfl,
    run_markdown_cell baseState 1 { cells := [EMPTY_CODE_CELL, EMPTY_MARKDOWN_CELL] }
      EMPTY_MARKDOWN_CELL rfl rfl rfl rfl⟩

/-- C4 counterexample: with an execution in flight (`executingCellIndex =
some 0`), `run(1)` is not rejected: a second execute request is sent,
cell 1 receives the placeholder Output, and `executingCellIndex` is
overwritten with 1. -/
theorem run_while_executing_counterexample :
    busyState.executingCellIndex = some 0 ∧
    (handleRunCell busyState 1).2 = [.execute "print('Olá!')"] ∧
    (handleRunCell busyState 1).1.executingCellIndex = some 1 ∧
    ((handleRunCell busyState 1).1.content.bind (fun c => c.cells[1]?)).map
        Cell.outputs =
      some [{ type := .status, content := "Executando..." }] := by
  exact ⟨rfl, by decide, by decide, by decide⟩

/-- C4 (amended): `handleRunCell` contains no `executingCellIndex` check;
a `run(j)` issued while an execution is in flight proceeds exactly like a
normal run — it sends a (second) execute request carrying cell `j`'s
newline-joined source, applies the status placeholder to cell `j`, and
overwrites `executingCellIndex` with `j`. -/
theorem run_while_executing_dispatches (st : AppState) (i j : Nat) (c : Content)
    (cell : Cell) (hexec : st.executingCellIndex = some i)
    (hopen : st.socketOpen = true) (hc : st.content = some c)
    (hcell : c.cells[j]? = some cell) (hcode : cell.cell_type = .code) :
    (handleRunCell st j).2 = [.execute (String.intercalate "\n" cell.source)] ∧
    (handleRunCell st j).1.executingCellIndex = some j ∧
    ((handleRunCell st j).1.content.bind (fun c' => c'.cells[j]?)) =
      some { cell with outputs :=
        [{ type := .status, content := "Executando..." }] } := by
  unfold handleRunCell
  simp only [hc, hopen, Option.isSome_some, Option.isNone_some,
    Bool.true_eq_false, false_or, or_self, if_false, hcell, hcode]
  simp [setCellOutput, hcode, getElem?_setCellOutputCells, hcell, mergeOutput]

theorem run_while_executing_dispatches_witness :
    busyState.executingCellIndex = some 0 ∧
    busyState.socketOpen = true ∧
    busyState.content = some { cells := [EMPTY_CODE_CELL, EMPTY_CODE_CELL] } ∧
    (Content.mk [EMPTY_CODE_CELL, EMPTY_CODE_CELL]).cells[1]? = some EMPTY_CODE_CELL ∧
    EMPTY_CODE_CELL.cell_type = .code ∧
    ((handleRunCell busyState 1).2 =
        [.execute (String.intercalate "\n" EMPTY_CODE_CELL.source)] ∧
     (handleRunCell busyState 1).1.executingCellIndex = some 1 ∧
     ((handleRunCell busyState 1).1.content.bind (fun c' => c'.cells[1]?)) =
       some { EMPTY_CODE_CELL with outputs :=
         [{ type := .status, content := "Executando..." }] }) :=
  ⟨rfl, rfl, rfl, rfl, rfl,
    run_while_executing_dispatches busyState 0 1
      { cells := [EMPTY_CODE_CELL, EMPTY_CODE_CELL] } EMPTY_CODE_CELL
      rfl rfl rfl rfl rfl⟩

/-- C5 counterexample: a closure with reason `"Kernel restarting"` (code
1006) starting from token `"tok"` schedules a reconnection whose
credential is `"tok "` — the token with a space appended, not the
identical stored token. -/
theorem kernel_restart_token_counterexample :
    baseState.token = some "tok" ∧
    (oncloseStep baseState 1006 "Kernel restarting").2 =
      .reconnectScheduled "tok " ∧
    ("tok " : String) ≠ "tok" := by
  exact ⟨rfl, by decide, by decide⟩

/-- C5 (amended): a closure with reason `"Kernel restarting"` and code ≠
1008 clears every code cell's Output, clears the executing indicator and
the resource stats, does not force logout (the persisted token is
untouched), and schedules a reconnection — but the credential it uses is
the closed connection's token with one space appended (the trick that
forces the connection effect to re-run), not the byte-identical token. -/
theorem kernel_restart_close (st : AppState) (t : String) (code : Nat)
    (hcode : code ≠ 1008) (ht : st.token = some t) :
    (oncloseStep st code "Kernel restarting").1.executingCellIndex = none ∧
    (oncloseStep st code "Kernel restarting").1.resourceStats = none ∧
    (oncloseStep st code "Kernel restarting").1.token = some (t ++ " ") ∧
    (oncloseStep st code "Kernel restarting").1.storedToken = st.storedToken ∧
    (oncloseStep st code "Kernel restarting").2 = .reconnectScheduled (t ++ " ") ∧
    (∀ c cell, (oncloseStep st code "Kernel restarting").1.content = some c →
      cell ∈ c.cells → cell.cell_type = .code → cell.outputs = []) := by
  unfold oncloseStep
  cases hsc : st.content with
  | none =>
      simp [hcode, clearAllOutputs, hsc, ht]
  | some c0 =>
      simp only [hcode, if_neg, not_false_iff, if_pos, clearAllOutputs, hsc, ht,
        reduceIte, Option.getD_some]
      refine ⟨trivial, trivial, trivial, trivial, trivial, ?_⟩
      intro c cell hc hmem hcode'
      simp only [Option.some.injEq] at hc
      subst hc
      simp only [List.mem_map] at hmem
      obtain ⟨x, _, hx⟩ := hmem
      by_cases hxt : x.cell_type = CellType.code
      · rw [if_pos hxt] at hx
        rw [← hx]
      · rw [if_neg hxt] at hx
        rw [← hx] at hcode'
        exact absurd hcode' hxt

theorem kernel_restart_close_witness :
    (1006 : Nat) ≠ 1008 ∧
    baseState.token = some "tok" ∧
    ((oncloseStep baseState 1006 "Kernel restarting").1.executingCellIndex = none ∧
     (oncloseStep baseState 1006 "Kernel restarting").1.resourceStats = none ∧
     (oncloseStep baseState 1006 "Kernel restarting").1.token = some ("tok" ++ " ") ∧
     (oncloseStep baseState 1006 "Kernel restarting").1.storedToken = baseState.storedToken ∧
     (oncloseStep baseState 1006 "Kernel restarting").2 =
       .reconnectScheduled ("tok" ++ " ") ∧
     (∀ c cell, (oncloseStep baseState 1006 "Kernel restarting").1.content = some c →
       cell ∈ c.cells → cell.cell_type = .code → cell.outputs = [])) :=
  ⟨by decide, rfl, kernel_restart_close baseState "tok" 1006 (by decide) rfl⟩

/-- C6 counterexample: reachable violation of the markdown half of the
invariant.  `run(0)` starts executing the code cell, the user focuses the
markdown cell 1 (`handleCellFocus`), and the next streamed frame is
routed to the *current* active cell — the markdown cell ends up carrying
an Output with content `"oops"`. -/
theorem markdown_cell_gains_output_counterexample :
    ((stepEvents baseState
        [.run 0, .cellFocus 1, .serverMsg (.stream "oops")]).content.bind
        (fun c => c.cells[1]?)).map (fun cell => (cell.cell_type, cell.outputs)) =
      some (.markdown, [{ type := .stdout, content := "oops" }]) ∧
    ([{ type := .stdout, content := "oops" }] : List Output) ≠ [] := by
  exact ⟨by decide, by decide⟩

/-- `p` holds on every cell of the list. -/
theorem all_mapWithIndexFrom {p : α → Bool} {f : Nat → α → α} (k : Nat)
    (l : List α) (hf : ∀ i a, p a = true → p (f i a) = true)
    (h : l.all p = true) : (mapWithIndexFrom f k l).all p = true := by
  induction l generalizing k with
  | nil => rfl
  | cons a as ih =>
      simp only [List.all_cons, Bool.and_eq_true] at h
      simp only [mapWithIndexFrom, List.all_cons, Bool.and_eq_true]
      exact ⟨hf k a h.1, ih (k + 1) h.2⟩

theorem all_mapWithIndex {p : α → Bool} {f : Nat → α → α} (l : List α)
    (hf : ∀ i a, p a = true → p (f i a) = true)
    (h : l.all p = true) : (mapWithIndex f l).all p = true :=
  all_mapWithIndexFrom 0 l hf h

theorem all_map_preserve {p : α → Bool} {f : α → α} (l : List α)
    (hf : ∀ a, p a = true → p (f a) = true)
    (h : l.all p = true) : (l.map f).all p = true := by
  induction l with
  | nil => rfl
  | cons a as ih =>
      simp only [List.all_cons, Bool.and_eq_true] at h
      simp only [List.map_cons, List.all_cons, Bool.and_eq_true]
      exact ⟨hf a h.1, ih h.2⟩

theorem all_listInsertAt {p : α → Bool} (l : List α) (n : Nat) (a : α)
    (h : l.all p = true) (ha : p a = true) :
    (listInsertAt l n a).all p = true := by
  rw [List.all_eq_true] at h ⊢
  intro x hx
  simp only [listInsertAt, List.mem_append, List.mem_cons] at hx
  rcases hx with hx | hx | hx
  · exact h x (List.take_subset n l hx)
  · rw [hx]; exact ha
  · exact h x (List.drop_subset n l hx)

theorem all_listRemoveAt {p : α → Bool} (l : List α) (n : Nat)
    (h : l.all p = true) : (listRemoveAt l n).all p = true := by
  rw [List.all_eq_true] at h ⊢
  intro x hx
  simp only [listRemoveAt, List.mem_append] at hx
  rcases hx with hx | hx
  · exact h x (List.take_subset n l hx)
  · exact h x (List.drop_subset (n + 1) l hx)

theorem atMostOne_mergeOutput (cell : Cell) (out : Output) (s : Bool) :
    atMostOne (mergeOutput cell out s) = true := by
  unfold mergeOutput atMostOne
  cases s <;> simp

theorem outputsAtMostOne_setCellOutput (st : AppState) (i : Nat) (out : Output)
    (s : Bool) (h : outputsAtMostOne st = true) :
    outputsAtMostOne (setCellOutput st i out s) = true := by
  unfold setCellOutput
  cases hc : st.content with
  | none => simpa [hc] using h
  | some c =>
      simp only [outputsAtMostOne, hc] at h ⊢
      apply all_mapWithIndex
      · intro j cell hcell
        by_cases hji : j = i
        · simp only [hji, if_pos]
          exact atMostOne_mergeOutput cell out s
        · simpa [hji] using hcell
      · exact h

theorem outputsAtMostOne_applyCellOp (st : AppState) (op : CellOp)
    (h : outputsAtMostOne st = true) :
    outputsAtMostOne (applyCellOp st op) = true := by
  cases op with
  | insert kind =>
      show outputsAtMostOne (handleAddCell st kind) = true
      unfold handleAddCell
      cases hc : st.content with
      | none => simpa [hc] using h
      | some c =>
          simp only [outputsAtMostOne, hc] at h ⊢
          apply all_listInsertAt _ _ _ h
          cases kind <;> simp [EMPTY_CODE_CELL, EMPTY_MARKDOWN_CELL]
  | delete index cf =>
      show outputsAtMostOne (handleDeleteCell st index cf) = true
      unfold handleDeleteCell
      cases hc : st.content with
      | none => simpa [hc] using h
      | some c =>
          simp only [hc]
          split
          · exact h
          · simp only [outputsAtMostOne, hc] at h ⊢
            exact all_listRemoveAt _ _ h
  | move index d =>
      show outputsAtMostOne (handleMoveCell st index d) = true
      unfold handleMoveCell
      cases hc : st.content with
      | none => simpa [hc] using h
      | some c =>
          simp only [hc]
          split
          · exact h
          · split
            · exact h
            · rename_i cellToMove hcell
              simp only [outputsAtMostOne, hc] at h ⊢
              apply all_listInsertAt _ _ _ (all_listRemoveAt _ _ h)
              have hmem : cellToMove ∈ c.cells := by
                have hx := List.getElem?_eq_some.mp hcell
                obtain ⟨hlt, hget⟩ := hx
                rw [← hget]
                exact List.getElem_mem hlt
              exact (List.all_eq_true.mp h) cellToMove hmem

theorem outputsAtMostOne_handleRunCell (st : AppState) (index : Nat)
    (h : outputsAtMostOne st = true) :
    outputsAtMostOne (handleRunCell st index).1 = true := by
  unfold handleRunCell
  dsimp only
  split
  · simpa [outputsAtMostOne] using h
  · split
    · simpa [outputsAtMostOne] using h
    · split
      · simpa [outputsAtMostOne] using h
      · split
        · simpa [outputsAtMostOne] using h
        · dsimp only
          have hbase : outputsAtMostOne
              { st with activeCellIndex := some index,
                        executingCellIndex := some index } = true := by
            simpa [outputsAtMostOne] using h
          have hres := outputsAtMostOne_setCellOutput
            { st with activeCellIndex := some index,
                      executingCellIndex := some index } index
            { type := .status, content := "Executando..." } false hbase
          simpa [outputsAtMostOne] using hres

theorem outputsAtMostOne_stepEvent (st : AppState) (ev : AppEvent)
    (h : outputsAtMostOne st = true) :
    outputsAtMostOne (stepEvent st ev) = true := by
  cases ev with
  | cellOp op => exact outputsAtMostOne_applyCellOp st op h
  | cellChange index text =>
      show outputsAtMostOne (handleCellChange st index text) = true
      unfold handleCellChange
      cases hc : st.content with
      | none => simpa [hc] using h
      | some c =>
          simp only [outputsAtMostOne, hc] at h ⊢
          apply all_mapWithIndex _ _ h
          intro i cell hcell
          by_cases hji : i = index
          · simpa [hji] using hcell
          · simpa [hji] using hcell
  | cellFocus index =>
      show outputsAtMostOne (handleCellFocus st index) = true
      unfold handleCellFocus
      simpa [outputsAtMostOne] using h
  | run index =>
      exact outputsAtMostOne_handleRunCell st index h
  | clearOutputs =>
      show outputsAtMostOne (clearAllOutputs st) = true
      unfold clearAllOutputs
      cases hc : st.content with
      | none => simpa [hc] using h
      | some c =>
          simp only [outputsAtMostOne, hc] at h ⊢
          apply all_map_preserve _ _ h
          intro cell hcell
          by_cases hct : cell.cell_type = CellType.code
          · simp [hct, atMostOne]
          · simpa [hct] using hcell
  | serverMsg msg =>
      cases msg with
      | stream content =>
          show outputsAtMostOne (onmessage st (.stream content)) = true
          unfold onmessage
          cases ha : st.activeCellIndex with
          | none => simpa [ha] using h
          | some i =>
              simp only [ha]
              exact outputsAtMostOne_setCellOutput st i _ true h
      | stdout content =>
          show outputsAtMostOne (onmessage st (.stdout content)) = true
          unfold onmessage handleTerminal
          cases ha : st.activeCellIndex with
          | none => simpa [ha, outputsAtMostOne] using h
          | some i =>
              cases hc : st.content with
              | none => simpa [ha, hc, outputsAtMostOne] using h
              | some c =>
                  simp only [ha, hc, outputsAtMostOne] at h ⊢
                  apply all_mapWithIndex _ _ h
                  intro j cell hcell
                  by_cases hji : j = i
                  · simp [hji, atMostOne]
                  · simpa [hji] using hcell
      | stderr content =>
          show outputsAtMostOne (onmessage st (.stderr content)) = true
          unfold onmessage handleTerminal
          cases ha : st.activeCellIndex with
          | none => simpa [ha, outputsAtMostOne] using h
          | some i =>
              cases hc : st.content with
              | none => simpa [ha, hc, outputsAtMostOne] using h
              | some c =>
                  simp only [ha, hc, outputsAtMostOne] at h ⊢
                  apply all_mapWithIndex _ _ h
                  intro j cell hcell
                  by_cases hji : j = i
                  · simp [hji, atMostOne]
                  · simpa [hji] using hcell
      | filesystem_update => simpa [stepEvent, onmessage] using h
      | resource_stats content => simpa [stepEvent, onmessage, outputsAtMostOne] using h
      | disk_stats content => simpa [stepEvent, onmessage, outputsAtMostOne] using h
      | unknown => simpa [stepEvent, onmessage, outputsAtMostOne] using h
  | close code reason =>
      show outputsAtMostOne (oncloseStep st code reason).1 = true
      unfold oncloseStep
      split
      · simpa [outputsAtMostOne] using h
      · split
        · unfold clearAllOutputs
          cases hc : st.content with
          | none => simpa [outputsAtMostOne, hc] using h
          | some c =>
              simp only [outputsAtMostOne, hc] at h ⊢
              apply all_map_preserve _ _ h
              intro cell hcell
              by_cases hct : cell.cell_type = CellType.code
              · simp [hct, atMostOne]
              · simpa [hct] using hcell
        · simpa [outputsAtMostOne] using h

/-- C6 (amended): in every state reachable by cell mutations, executions,
inbound frames and closures, every cell holds at most one Output object;
the markdown half of the claimed invariant does not hold — an inbound
frame writes to whichever cell is currently active, so a markdown cell
can come to carry output content when focus moves during an execution. -/
theorem cells_hold_at_most_one_output (st : AppState) (evs : List AppEvent)
    (h : outputsAtMostOne st = true) :
    outputsAtMostOne (stepEvents st evs) = true := by
  induction evs generalizing st with
  | nil => exact h
  | cons ev evs ih => exact ih (stepEvent st ev) (outputsAtMostOne_stepEvent st ev h)

theorem cells_hold_at_most_one_output_witness :
    outputsAtMostOne baseState = true ∧
    outputsAtMostOne (stepEvents baseState
      [.run 0, .cellFocus 1, .serverMsg (.stream "oops"),
       .serverMsg (.stdout ""), .close 1006 "Kernel restarting"]) = true :=
  ⟨by decide, cells_hold_at_most_one_output baseState
    [.run 0, .cellFocus 1, .serverMsg (.stream "oops"),
     .serverMsg (.stdout ""), .close 1006 "Kernel restarting"] (by decide)⟩

/-- C8: two mutations at times `t1 ≤ t2` with `t2` inside the debounce
window of `t1` produce exactly one save, fired `AUTOSAVE_DELAY` (2000 ms)
after the second mutation: the first timer is cancelled and re-armed by
the second mutation, and never fires. -/
theorem debounce_two_mutations_single_save (t1 t2 : Nat) (h1 : t1 ≤ t2)
    (h2 : t2 < t1 + AUTOSAVE_DELAY) :
    debounceFires AUTOSAVE_DELAY [t1, t2] = [t2 + AUTOSAVE_DELAY] := by
  have hlt : ¬ (t1 + AUTOSAVE_DELAY ≤ t2) := by omega
  simp [debounceFires, debounceRun, hlt]

theorem debounce_two_mutations_single_save_witness :
    (0 : Nat) ≤ 500 ∧ (500 : Nat) < 0 + AUTOSAVE_DELAY ∧
    debounceFires AUTOSAVE_DELAY [0, 500] = [500 + AUTOSAVE_DELAY] :=
  ⟨by decide, by decide,
    debounce_two_mutations_single_save 0 500 (by decide) (by decide)⟩

end Pegasus
